import Mathlib

/-!
Verification of the HPIT python client's poll–dispatch engine
(`hpitclient/plugin.py`) against its natural-language specification.

The source file is shallowly embedded: Python dicts become ordered
association lists over `String` keys, handlers become explicit behaviour
functions (returning `none` for a normal return or `some e` for a raised
exception `e`), and every side effect against the broker or a
caller-supplied callable is recorded in an explicit event trace.
The hook machinery (`_add_hooks` / `_try_hook`), the session management
(`connect` / `disconnect`), the transport (`_get_data` / `_post_data`)
and the responses channel (`_poll_responses` / `_dispatch_responses`)
live in mixins that are not part of the sources; they are modelled from
the specification as noted on the corresponding definitions.
-/

set_option autoImplicit false

namespace HpitClient

/-- Values stored in a message payload dictionary (strings and numbers
suffice for the payloads the engine itself manipulates). -/
inductive Value where
  | str (s : String)
  | num (n : Int)
  deriving DecidableEq, Repr

/-- A Python dict with string keys, as an insertion-ordered association
list whose keys are unique. -/
abbrev PyDict (α : Type) := List (String × α)

/-- A message payload: the dict stored under the `message` key. -/
abbrev Payload := PyDict Value

/-- Dict assignment `d[k] = v`: replace the binding in place if the key
exists, otherwise append at the end (Python insertion order). -/
def pySet {α : Type} : PyDict α → String → α → PyDict α
  | [], k, v => [(k, v)]
  | (k', v') :: rest, k, v =>
      if k' = k then (k, v) :: rest else (k', v') :: pySet rest k v

/-- Dict lookup `d[k]`, with `none` standing for a raised `KeyError`. -/
def pyLookup {α : Type} : PyDict α → String → Option α
  | [], _ => none
  | (k', v) :: rest, k => if k' = k then some v else pyLookup rest k

/-- Dict deletion `del d[k]`: removes the (unique) binding for `k`. -/
def pyDel {α : Type} : PyDict α → String → PyDict α
  | [], _ => []
  | (k', v) :: rest, k => if k' = k then rest else (k', v) :: pyDel rest k

/-- The keys of a dict, in insertion order. -/
def pyKeys {α : Type} (d : PyDict α) : List String := d.map Prod.fst

/-- Python exceptions the engine raises, catches or propagates.
`pluginPollError` and `badCallback` mirror `PluginPollError` and
`BadCallbackException` from `hpitclient.exceptions`; `otherError` stands
for any further exception class (e.g. a transport failure) and
`keyboardInterrupt` for `KeyboardInterrupt`. -/
inductive PyExc where
  | keyError
  | typeError
  | keyboardInterrupt
  | pluginPollError (msg : String)
  | badCallback (msg : String)
  | otherError (name : String)
  deriving DecidableEq, Repr

/-- A caller-supplied message handler: a name identifying the callable
and its behaviour on a payload, `none` meaning a normal return and
`some e` meaning the body raises the exception `e`. -/
structure Handler where
  name : String
  behavior : Payload → Option PyExc

/-- A value stored in `self.callbacks`: a callable, Python `None`
(as installed by `list_subscriptions`), or some other non-callable
object (calling it raises `TypeError`, and it is not `None`). -/
inductive Slot where
  | callable (h : Handler)
  | pyNone
  | notCallable (descr : String)

/-- The subscription registry `self.callbacks`. -/
abbrev Registry := PyDict Slot

/-- The `self.wildcard_callback` attribute: `None` (falsy, so the
fallback is skipped), a callable, or a truthy non-callable value
(calling it raises `TypeError`). -/
inductive Wildcard where
  | pyNone
  | callable (h : Handler)
  | notCallableTruthy (descr : String)

/-- A caller-supplied transaction handler: the boolean is the
truthiness of its return value. -/
structure TxHandler where
  name : String
  behavior : PyDict Value → Bool

/-- A transaction record: an opaque mapping. -/
abbrev TxRecord := PyDict Value

/-- One inbound message as fetched from `plugin/message/list`. -/
structure MessageItem where
  message_id : String
  sender_entity_id : String
  message_name : String
  message : Payload
  deriving DecidableEq, Repr

/-- Observable actions of the engine: hook consultations, broker
requests, and invocations of caller-supplied callables. -/
inductive Event where
  | hookRun (name : String)
  | getData (endpoint : String)
  | postData (endpoint : String) (message_name : String)
  | handlerCall (handler : String) (payload : Payload)
  | wildcardCall (payload : Payload)
  | transactionCall (record : TxRecord)
  | pollResponses
  | dispatchResponses
  | connectEv
  | disconnectEv
  deriving DecidableEq, Repr

/-- The payload after the two in-place assignments
`payload['message_id'] = ...` and `payload['sender_entity_id'] = ...`
performed by `_dispatch` before the handler lookup. -/
def enrichPayload (m : MessageItem) : Payload :=
  pySet (pySet m.message "message_id" (Value.str m.message_id))
    "sender_entity_id" (Value.str m.sender_entity_id)

/-- The message item with its payload enriched in place. -/
def enrichItem (m : MessageItem) : MessageItem :=
  { m with message := enrichPayload m }

/-- The body of the `except KeyError` clause of `_dispatch`: if
`self.wildcard_callback` is truthy, call it, converting a `TypeError`
from the call into `PluginPollError`; a falsy wildcard means the
message is skipped silently. -/
def wildcardFallback (w : Wildcard) (payload : Payload) :
    List Event × Option PyExc :=
  match w with
  | Wildcard.pyNone => ([], none)
  | Wildcard.notCallableTruthy _ =>
      ([], some (PyExc.pluginPollError "Wildcard Callback is not a callable"))
  | Wildcard.callable h =>
      match h.behavior payload with
      | none => ([Event.wildcardCall payload], none)
      | some PyExc.typeError =>
          ([Event.wildcardCall payload],
            some (PyExc.pluginPollError "Wildcard Callback is not a callable"))
      | some e => ([Event.wildcardCall payload], some e)

/-- The body of the `for message_item in message_data` loop of
`_dispatch` for a single message: enrich the payload, then
`self.callbacks[message](payload)` under `except KeyError` /
`except TypeError`. Returns the trace, the (mutated) message item and
the exception propagating out of the iteration, if any. -/
def dispatchOne (cb : Registry) (w : Wildcard) (m : MessageItem) :
    List Event × MessageItem × Option PyExc :=
  let payload := enrichPayload m
  let m' := { m with message := payload }
  match pyLookup cb m.message_name with
  | none =>
      -- the lookup itself raises KeyError: wildcard fallback
      let f := wildcardFallback w payload
      (f.1, m', f.2)
  | some Slot.pyNone =>
      -- calling None raises TypeError; `self.callbacks[message] is None`
      (([] : List Event), m',
        some (PyExc.pluginPollError
          ("No callback registered for message: <" ++ m.message_name ++ ">")))
  | some (Slot.notCallable _) =>
      -- calling a non-callable raises TypeError; it is not None: re-raise
      (([] : List Event), m', some PyExc.typeError)
  | some (Slot.callable h) =>
      match h.behavior payload with
      | none => ([Event.handlerCall h.name payload], m', none)
      | some PyExc.keyError =>
          -- a KeyError raised by the handler body is caught by the same
          -- `except KeyError` clause as a failed lookup
          let f := wildcardFallback w payload
          (Event.handlerCall h.name payload :: f.1, m', f.2)
      | some e =>
          -- `except TypeError` re-raises since the slot is not None;
          -- every other exception is not caught at all
          ([Event.handlerCall h.name payload], m', some e)

/-- The `for message_item in message_data` loop of `_dispatch`: stops at
the first propagating exception, leaving later items unprocessed (and
unenriched). Returns the trace, the caller-visible message list and the
propagating exception, if any. -/
def dispatchLoop (cb : Registry) (w : Wildcard) :
    List MessageItem → List Event × List MessageItem × Option PyExc
  | [] => ([], [], none)
  | m :: rest =>
      let r := dispatchOne cb w m
      match r.2.2 with
      | some e => (r.1, r.2.1 :: rest, some e)
      | none =>
          let t := dispatchLoop cb w rest
          (r.1 ++ t.1, r.2.1 :: t.2.1, t.2.2)

/-- The `_dispatch` method. Hook consultations are modelled from the
spec: `_try_hook` lives in `MessageSenderMixin` (not in the sources) and
per the spec returns a boolean continuation signal, here supplied as
`hooks : String → Bool`. Returns the trace, the caller-visible message
list, and either the propagating exception or the boolean result. -/
def dispatchMethod (hooks : String → Bool) (cb : Registry) (w : Wildcard)
    (msgs : List MessageItem) :
    List Event × List MessageItem × Except PyExc Bool :=
  if hooks "pre_dispatch_messages" then
    let r := dispatchLoop cb w msgs
    match r.2.2 with
    | some e => (Event.hookRun "pre_dispatch_messages" :: r.1, r.2.1, Except.error e)
    | none =>
        (Event.hookRun "pre_dispatch_messages" :: r.1
            ++ [Event.hookRun "post_dispatch_messages"], r.2.1,
          Except.ok (hooks "post_dispatch_messages"))
  else
    ([Event.hookRun "pre_dispatch_messages"], msgs, Except.ok false)

/-- The `for item in transaction_data` loop of `_handle_transactions`:
with a registered callback, a falsy handler result returns `False`
immediately; with `self.transaction_callback` unset the records are
consumed silently. -/
def handleTxLoop (cb : Option TxHandler) :
    List TxRecord → List Event × Bool
  | [] => ([], true)
  | r :: rest =>
      match cb with
      | none => handleTxLoop cb rest
      | some h =>
          if h.behavior r then
            let t := handleTxLoop cb rest
            (Event.transactionCall r :: t.1, t.2)
          else
            ([Event.transactionCall r], false)

/-- The `_handle_transactions` method: fetch `plugin/transaction/list`
(the fetched list is supplied as `txData`), then run the record loop. -/
def handleTransactions (cb : Option TxHandler) (txData : List TxRecord) :
    List Event × Bool :=
  let t := handleTxLoop cb txData
  (Event.getData "plugin/transaction/list" :: t.1, t.2)

/-- A value passed to `register_transaction_callback`: either a callable
or some value without a `__call__` attribute (Python `None` included). -/
inductive CallbackVal where
  | callable (h : TxHandler)
  | notCallable (descr : String)

/-- The `register_transaction_callback` method. The non-callable check
comes first; only then is `plugin/subscribe` posted and the slot
written. `postOk` is whether the remote post (from the transport mixin,
an external collaborator) succeeds; on failure it raises and the slot
is left unchanged. Returns the trace, the new `self.transaction_callback`
slot and the raised exception, if any. -/
def registerTransactionCallback (slot : Option TxHandler)
    (cb : CallbackVal) (postOk : Bool) :
    List Event × Option TxHandler × Option PyExc :=
  match cb with
  | CallbackVal.notCallable _ =>
      ([], slot,
        some (PyExc.badCallback "The callback submitted is not callable."))
  | CallbackVal.callable h =>
      if postOk then
        ([Event.postData "plugin/subscribe" "transaction"], some h, none)
      else
        ([Event.postData "plugin/subscribe" "transaction"], slot,
          some (PyExc.otherError "transport failure"))

/-- One entry handed to `subscribe`: the message name, the value stored
as its handler, and whether the remote `plugin/subscribe` post for this
entry succeeds. -/
abbrev SubEntry := String × Slot × Bool

/-- The `for message_name, callback in messages.items()` loop of
`subscribe`: post, then record. A failing post raises, aborting the
loop with the registry as it stood. -/
def subscribeRun : List SubEntry → Registry → Registry × Option PyExc
  | [], cb => (cb, none)
  | (name, slot, ok) :: rest, cb =>
      if ok then subscribeRun rest (pySet cb name slot)
      else (cb, some (PyExc.otherError "transport failure"))

/-- The `unsubscribe` loop: names absent from the registry are skipped;
for present names the remote post happens before the deletion, so a
failing post (second component `false`) raises with the entry intact. -/
def unsubscribeRun : List (String × Bool) → Registry → Registry × Option PyExc
  | [], cb => (cb, none)
  | (name, ok) :: rest, cb =>
      if (pyLookup cb name).isSome then
        if ok then unsubscribeRun rest (pyDel cb name)
        else (cb, some (PyExc.otherError "transport failure"))
      else unsubscribeRun rest cb

/-- The `list_subscriptions` method: every name in the broker's
subscription list that is absent locally is added with a `None`
handler. -/
def listSubscriptions (cb : Registry) (brokerSubs : List String) : Registry :=
  brokerSubs.foldl
    (fun acc sub => if (pyLookup acc sub).isSome then acc else pySet acc sub Slot.pyNone)
    cb

/-- One registry operation, for stating the registry invariant over
arbitrary operation sequences. -/
inductive RegOp where
  | subOp (entries : List SubEntry)
  | unsubOp (names : List (String × Bool))
  | listOp (brokerSubs : List String)

/-- Apply one registry operation (a raised transport error is caught by
the caller; the registry it leaves behind is what matters). -/
def applyOp (cb : Registry) : RegOp → Registry
  | RegOp.subOp entries => (subscribeRun entries cb).1
  | RegOp.unsubOp names => (unsubscribeRun names cb).1
  | RegOp.listOp subs => listSubscriptions cb subs

/-- Run a sequence of registry operations from the empty registry of a
fresh `Plugin`. -/
def runOps (ops : List RegOp) : Registry :=
  ops.foldl applyOp []

/-- The names actually posted (and recorded) by the successful prefix of
each `subscribe` call in a sequence of operations. -/
def subscribedNames : List RegOp → List String
  | [] => []
  | RegOp.subOp entries :: rest =>
      (entries.takeWhile fun e => e.2.2).map (fun e => e.1) ++ subscribedNames rest
  | _ :: rest => subscribedNames rest

/-- The names a registry entry can originate from: a successfully posted
`subscribe` entry, or a name reported by the broker to
`list_subscriptions`. -/
def opNames : RegOp → List String
  | RegOp.subOp entries => (entries.takeWhile fun e => e.2.2).map (fun e => e.1)
  | RegOp.unsubOp _ => []
  | RegOp.listOp subs => subs

/-- All origins across a sequence of operations. -/
def provenance : List RegOp → List String
  | [] => []
  | op :: rest => opNames op ++ provenance rest

/-- The polling interval `self.poll_wait` set in `__init__` (ms). -/
def pollWait : Int := 100

/-- The mutable plugin state the poll loop reads and writes. -/
structure PState where
  run_loop : Bool
  callbacks : Registry
  wildcard_callback : Wildcard
  transaction_callback : Option TxHandler
  time_last_poll : Int

/-- The environment a run of `start` executes in: the wall clock at each
loop iteration, the per-cycle result of each named hook, the batches the
broker returns, the (spec-modelled) responses channel, and whether
`stop()` gets called from within a handler during a cycle. Hook results
are modelled from the spec: `_try_hook` is mixin code, specified to
return a boolean continuation signal per named hook point. The responses
channel (`_poll_responses` / `_dispatch_responses`, step 10 of the spec's
cycle) is likewise mixin code, modelled as an opaque fetch plus a boolean
dispatch result. -/
structure Env where
  times : Nat → Int
  hookResults : Nat → String → Bool
  messages : Nat → List MessageItem
  transactions : Nat → List TxRecord
  respDispatchOk : Nat → Bool
  stopDuring : Nat → Bool
  initCallbacks : Registry
  brokerSubs : List String
  wildcard : Wildcard
  txCallback : Option TxHandler
  initTime : Int

/-- The outcome of one iteration of the `while self.run_loop` body. -/
inductive CycleOutcome where
  | nextCycle (st : PState)
  | breakLoop (st : PState)
  | returnFalse (st : PState)
  | raised (e : PyExc) (st : PState)

/-- Whether a cycle outcome lets the loop continue. -/
def CycleOutcome.isNext : CycleOutcome → Bool
  | CycleOutcome.nextCycle _ => true
  | _ => false

/-- One iteration of the body of `start`'s `while` loop at iteration
index `n`: the elapsed-time check (`continue` when not yet elapsed),
then the hook / fetch / dispatch / transaction / responses sequence of
the source. -/
def runCycle (env : Env) (st : PState) (n : Nat) : List Event × CycleOutcome :=
  if env.times n - st.time_last_poll < pollWait then
    ([], CycleOutcome.nextCycle st)
  else
  let st' : PState := { st with time_last_poll := env.times n }
  let hr := env.hookResults n
  if hr "pre_poll_messages" = false then
    ([Event.hookRun "pre_poll_messages"], CycleOutcome.breakLoop st')
  else
  let tr2 := [Event.hookRun "pre_poll_messages",
    Event.getData "plugin/message/list", Event.hookRun "post_poll_messages"]
  if hr "post_poll_messages" = false then
    (tr2, CycleOutcome.breakLoop st')
  else
  let d := dispatchMethod hr st.callbacks st.wildcard_callback (env.messages n)
  match d.2.2 with
  | Except.error e => (tr2 ++ d.1, CycleOutcome.raised e st')
  | Except.ok false => (tr2 ++ d.1, CycleOutcome.returnFalse st')
  | Except.ok true =>
  let tr3 := tr2 ++ d.1
  if hr "pre_handle_transactions" = false then
    (tr3 ++ [Event.hookRun "pre_handle_transactions"], CycleOutcome.breakLoop st')
  else
  let t := handleTransactions st.transaction_callback (env.transactions n)
  let tr4 := tr3 ++ Event.hookRun "pre_handle_transactions" :: t.1
  if t.2 = false then
    (tr4, CycleOutcome.returnFalse st')
  else
  if hr "post_handle_transactions" = false then
    (tr4 ++ [Event.hookRun "post_handle_transactions"], CycleOutcome.breakLoop st')
  else
  let tr5 := tr4 ++ [Event.hookRun "post_handle_transactions"]
  if hr "pre_poll_responses" = false then
    (tr5 ++ [Event.hookRun "pre_poll_responses"], CycleOutcome.breakLoop st')
  else
  let tr6 := tr5 ++ [Event.hookRun "pre_poll_responses", Event.pollResponses]
  if hr "post_poll_responses" = false then
    (tr6 ++ [Event.hookRun "post_poll_responses"], CycleOutcome.breakLoop st')
  else
  let tr7 := tr6 ++ [Event.hookRun "post_poll_responses", Event.dispatchResponses]
  if env.respDispatchOk n = false then
    (tr7, CycleOutcome.breakLoop st')
  else
    (tr7, CycleOutcome.nextCycle
      { st' with run_loop := st'.run_loop && !env.stopDuring n })

/-- How a call to `start` ends: falling through to `self.disconnect()`
and returning `None` (`finished` — clean stop, a hook `break`, a falsy
responses dispatch, or a caught `KeyboardInterrupt`), the bare
`return False` statements, an uncaught exception, or exhaustion of the
step budget of this embedding. -/
inductive StartOutcome where
  | finished
  | returnedFalse
  | raisedExc (e : PyExc)
  | outOfFuel
  deriving DecidableEq, Repr

/-- The `try ... while self.run_loop` part of `start`, with `fuel`
bounding the number of iterations. A `KeyboardInterrupt` escaping the
body is caught and falls through to `self.disconnect()`; any other
exception propagates without disconnecting — and so do the
`return False` statements. -/
def startAux (env : Env) : PState → Nat → Nat → List Event × StartOutcome
  | _, _, 0 => ([], StartOutcome.outOfFuel)
  | st, n, fuel + 1 =>
      if st.run_loop then
        let c := runCycle env st n
        match c.2 with
        | CycleOutcome.nextCycle st' =>
            let r := startAux env st' (n + 1) fuel
            (c.1 ++ r.1, r.2)
        | CycleOutcome.breakLoop _ =>
            (c.1 ++ [Event.disconnectEv], StartOutcome.finished)
        | CycleOutcome.returnFalse _ => (c.1, StartOutcome.returnedFalse)
        | CycleOutcome.raised e _ =>
            if e = PyExc.keyboardInterrupt then
              (c.1 ++ [Event.disconnectEv], StartOutcome.finished)
            else (c.1, StartOutcome.raisedExc e)
      else ([Event.disconnectEv], StartOutcome.finished)

/-- The `start` method: `self.connect()` (session mixin, an external
collaborator, recorded as an event), `self.list_subscriptions()`, then
the polling loop. -/
def hpitStart (env : Env) (fuel : Nat) : List Event × StartOutcome :=
  let st0 : PState := {
    run_loop := true
    callbacks := listSubscriptions env.initCallbacks env.brokerSubs
    wildcard_callback := env.wildcard
    transaction_callback := env.txCallback
    time_last_poll := env.initTime }
  let r := startAux env st0 0 fuel
  (Event.connectEv :: Event.getData "plugin/subscription/list" :: r.1, r.2)

/-- Recognizers for counting lifecycle and handler events in a trace. -/
def isConnectEv : Event → Bool
  | Event.connectEv => true
  | _ => false

/-- Recognizer for the disconnect event. -/
def isDisconnectEv : Event → Bool
  | Event.disconnectEv => true
  | _ => false

/-- Recognizer for registered-handler invocations. -/
def isHandlerCall : Event → Bool
  | Event.handlerCall _ _ => true
  | _ => false

/-- Recognizer for wildcard invocations. -/
def isWildcardCall : Event → Bool
  | Event.wildcardCall _ => true
  | _ => false

/-- Predicate for the per-message dispatch events (handler and wildcard
invocations). -/
def isDispatchEv (e : Event) : Bool := isHandlerCall e || isWildcardCall e

/-- Predicate for the session lifecycle events. -/
def isLifecycleEv (e : Event) : Bool := isConnectEv e || isDisconnectEv e

/-! ## Concrete inputs used by witnesses and counterexamples -/

/-- Hook environment in which every hook point returns `True`. -/
def trueHooks : String → Bool := fun _ => true

/-- An inbound message with no subscription (`"unknown_event"`). -/
def msgUnknown : MessageItem :=
  { message_id := "1", sender_entity_id := "tutorA",
    message_name := "unknown_event", message := [("score", Value.num 90)] }

/-- The spec's example handler `h1`, returning normally. -/
def hGrade : Handler := { name := "h1", behavior := fun _ => none }

/-- The spec's example message for `"grade_update"`. -/
def msgGrade : MessageItem :=
  { message_id := "1", sender_entity_id := "tutorA",
    message_name := "grade_update", message := [("score", Value.num 90)] }

/-- A registered handler whose body raises `KeyError`. -/
def hRaisesKeyError : Handler :=
  { name := "h_keyerr", behavior := fun _ => some PyExc.keyError }

/-- A registered handler whose body raises a `ValueError`. -/
def hRaisesValueError : Handler :=
  { name := "h_boom", behavior := fun _ => some (PyExc.otherError "ValueError") }

/-- A well-behaved wildcard handler. -/
def hWild : Handler := { name := "wild", behavior := fun _ => none }

/-- A message whose name has a registered handler in the examples. -/
def msgEvt : MessageItem :=
  { message_id := "2", sender_entity_id := "tutorB",
    message_name := "evt", message := [("k", Value.str "v")] }

/-- A transaction handler returning `False` exactly on records carrying
a `"stop"` key. -/
def txStopper : TxHandler :=
  { name := "tx", behavior := fun r => (pyLookup r "stop").isNone }

/-- A transaction record the handler accepts. -/
def recGo : TxRecord := [("a", Value.num 1)]

/-- A transaction record the handler stops on. -/
def recStop : TxRecord := [("stop", Value.num 1)]

/-- An environment whose cycle 0 has the `pre_dispatch_messages` hook
returning `False` and everything else succeeding. -/
def envDispatchHookFalse : Env := {
  times := fun _ => 1000
  hookResults := fun _ s => !(s == "pre_dispatch_messages")
  messages := fun _ => []
  transactions := fun _ => []
  respDispatchOk := fun _ => true
  stopDuring := fun _ => false
  initCallbacks := []
  brokerSubs := []
  wildcard := Wildcard.pyNone
  txCallback := none
  initTime := 0 }

/-- An environment in which every hook returns `False` from the start. -/
def envAllHooksFalse : Env :=
  { envDispatchHookFalse with hookResults := fun _ _ => false }

/-- A quiescent plugin state used by the cycle witnesses. -/
def stIdle : PState := {
  run_loop := true
  callbacks := []
  wildcard_callback := Wildcard.pyNone
  transaction_callback := none
  time_last_poll := 0 }

/-! ## Helper lemmas -/

lemma wildcardFallback_events (w : Wildcard) (p : Payload) :
    (wildcardFallback w p).1 = [] ∨ (wildcardFallback w p).1 = [Event.wildcardCall p] := by
  rcases w with _ | h | d
  · left; rfl
  · rcases hb : h.behavior p with _ | e
    · right; simp [wildcardFallback, hb]
    · right; rcases e <;> simp [wildcardFallback, hb]
  · left; rfl

lemma dispatchOne_item (cb : Registry) (w : Wildcard) (m : MessageItem) :
    (dispatchOne cb w m).2.1 = enrichItem m := by
  rcases hl : pyLookup cb m.message_name with _ | s
  · simp [dispatchOne, enrichItem, hl]
  · rcases s with h | _ | d
    · rcases hb : h.behavior (enrichPayload m) with _ | e
      · simp [dispatchOne, enrichItem, hl, hb]
      · rcases e <;> simp [dispatchOne, enrichItem, hl, hb]
    · simp [dispatchOne, enrichItem, hl]
    · simp [dispatchOne, enrichItem, hl]

lemma dispatchOne_events (cb : Registry) (w : Wildcard) (m : MessageItem) :
    ∀ e ∈ (dispatchOne cb w m).1,
      (∃ s, e = Event.handlerCall s (enrichPayload m)) ∨
      e = Event.wildcardCall (enrichPayload m) := by
  intro e he
  rcases hl : pyLookup cb m.message_name with _ | s
  · simp only [dispatchOne, hl] at he
    rcases wildcardFallback_events w (enrichPayload m) with hw | hw <;>
      simp_all
  · rcases s with h | _ | d
    · rcases hb : h.behavior (enrichPayload m) with _ | e'
      · simp only [dispatchOne, hl, hb] at he
        simp_all
      · rcases e' <;> simp only [dispatchOne, hl, hb] at he
        case keyError =>
          rcases wildcardFallback_events w (enrichPayload m) with hw | hw <;>
            rw [hw] at he <;> simp at he
          · exact Or.inl ⟨h.name, he⟩
          · rcases he with rfl | rfl
            · exact Or.inl ⟨h.name, rfl⟩
            · exact Or.inr rfl
        all_goals simp_all
    · simp [dispatchOne, hl] at he
    · simp [dispatchOne, hl] at he

lemma dispatchLoop_events (cb : Registry) (w : Wildcard) :
    ∀ msgs : List MessageItem, ∀ e ∈ (dispatchLoop cb w msgs).1,
      (∃ s m, m ∈ msgs ∧ e = Event.handlerCall s (enrichPayload m)) ∨
      (∃ m, m ∈ msgs ∧ e = Event.wildcardCall (enrichPayload m)) := by
  intro msgs
  induction msgs with
  | nil => intro e he; simp [dispatchLoop] at he
  | cons m rest ih =>
      intro e he
      simp only [dispatchLoop] at he
      rcases hx : (dispatchOne cb w m).2.2 with _ | ex
      · simp only [hx] at he
        rcases List.mem_append.mp he with h1 | h2
        · rcases dispatchOne_events cb w m e h1 with ⟨s, rfl⟩ | rfl
          · exact Or.inl ⟨s, m, by simp⟩
          · exact Or.inr ⟨m, by simp⟩
        · rcases ih e h2 with ⟨s, m', hm, rfl⟩ | ⟨m', hm, rfl⟩
          · exact Or.inl ⟨s, m', by simp [hm]⟩
          · exact Or.inr ⟨m', by simp [hm]⟩
      · simp only [hx] at he
        rcases dispatchOne_events cb w m e he with ⟨s, rfl⟩ | rfl
        · exact Or.inl ⟨s, m, by simp⟩
        · exact Or.inr ⟨m, by simp⟩

lemma dispatchLoop_items (cb : Registry) (w : Wildcard) :
    ∀ msgs : List MessageItem, (dispatchLoop cb w msgs).2.2 = none →
      (dispatchLoop cb w msgs).2.1 = msgs.map enrichItem := by
  intro msgs
  induction msgs with
  | nil => intro _; simp [dispatchLoop]
  | cons m rest ih =>
      intro h
      simp only [dispatchLoop] at h ⊢
      rcases hx : (dispatchOne cb w m).2.2 with _ | ex
      · simp only [hx]
        simp [dispatchOne_item, ih (by simpa [hx] using h)]
      · simp [hx] at h

/-! ## C1: missing handler, no wildcard -/

/-- C1, counterexample: the claim says a message whose name has no entry
in the registry raises `NoHandlerRegistered` when no wildcard is set.
On the code, dispatching `"unknown_event"` against an empty registry
with `wildcard_callback = None` raises nothing: the `except KeyError`
clause falls through silently and `_dispatch` returns `True`. -/
theorem dispatch_missing_handler_cex :
    dispatchMethod trueHooks [] Wildcard.pyNone [msgUnknown] =
      ([Event.hookRun "pre_dispatch_messages", Event.hookRun "post_dispatch_messages"],
        [enrichItem msgUnknown], Except.ok true) := by rfl

/-- C1, amended: a message whose name is absent from the registry is
silently skipped when no wildcard is set; the `NoHandlerRegistered`
error (`PluginPollError` naming the message) is raised exactly when the
registry maps the name to `None` (a null handler, as installed by
`list_subscriptions`). -/
theorem dispatch_missing_vs_null_handler (cb : Registry) (w : Wildcard) (m : MessageItem) :
    (pyLookup cb m.message_name = none → w = Wildcard.pyNone →
      dispatchOne cb w m = ([], enrichItem m, none)) ∧
    (pyLookup cb m.message_name = some Slot.pyNone →
      dispatchOne cb w m = ([], enrichItem m,
        some (PyExc.pluginPollError
          ("No callback registered for message: <" ++ m.message_name ++ ">")))) := by
  constructor
  · intro hl hw
    subst hw
    simp [dispatchOne, enrichItem, hl, wildcardFallback]
  · intro hl
    simp [dispatchOne, enrichItem, hl]

/-- C1, witness for the amended theorem at the spec's example inputs. -/
theorem dispatch_missing_vs_null_handler_witness :
    dispatchOne [] Wildcard.pyNone msgUnknown = ([], enrichItem msgUnknown, none) ∧
    dispatchOne [("unknown_event", Slot.pyNone)] Wildcard.pyNone msgUnknown =
      ([], enrichItem msgUnknown,
        some (PyExc.pluginPollError "No callback registered for message: <unknown_event>")) :=
  ⟨(dispatch_missing_vs_null_handler [] Wildcard.pyNone msgUnknown).1 rfl rfl,
   (dispatch_missing_vs_null_handler [("unknown_event", Slot.pyNone)]
      Wildcard.pyNone msgUnknown).2 rfl⟩

/-! ## C2: registered callable handler invoked exactly once -/

/-- C2: for a message whose name is registered with a callable handler,
the per-message dispatch invokes exactly that handler, exactly once,
with the single enriched payload (original fields plus `message_id` and
`sender_entity_id`) — whatever the handler then does. -/
theorem dispatch_registered_handler_called_once (cb : Registry) (w : Wildcard)
    (m : MessageItem) (h : Handler)
    (hl : pyLookup cb m.message_name = some (Slot.callable h)) :
    (dispatchOne cb w m).1.head? = some (Event.handlerCall h.name (enrichPayload m)) ∧
    (dispatchOne cb w m).1.countP isHandlerCall = 1 := by
  have hwf : ∀ p : Payload, (wildcardFallback w p).1.countP isHandlerCall = 0 := by
    intro p
    rcases wildcardFallback_events w p with hw | hw <;> simp [hw, isHandlerCall]
  rcases hb : h.behavior (enrichPayload m) with _ | e
  · simp [dispatchOne, hl, hb, isHandlerCall]
  · rcases e <;> simp [dispatchOne, hl, hb, isHandlerCall, hwf]

/-- C2, witness: the spec's `grade_update` example, evaluated. -/
theorem dispatch_registered_handler_called_once_witness :
    (dispatchOne [("grade_update", Slot.callable hGrade)] Wildcard.pyNone msgGrade).1.head? =
      some (Event.handlerCall "h1"
        [("score", Value.num 90), ("message_id", Value.str "1"),
          ("sender_entity_id", Value.str "tutorA")]) ∧
    (dispatchOne [("grade_update", Slot.callable hGrade)] Wildcard.pyNone
        msgGrade).1.countP isHandlerCall = 1 :=
  dispatch_registered_handler_called_once [("grade_update", Slot.callable hGrade)]
    Wildcard.pyNone msgGrade hGrade (by rfl)

/-! ## C4: handler-raised exceptions -/

/-- C4, counterexample: the claim says every exception a registered
callable handler raises propagates out of dispatch and never triggers
the wildcard. On the code, a handler raising `KeyError` is caught by
the `except KeyError` clause meant for the failed lookup: the wildcard
is invoked for that message and no exception escapes. -/
theorem handler_keyerror_not_propagated_cex :
    dispatchOne [("evt", Slot.callable hRaisesKeyError)] (Wildcard.callable hWild) msgEvt =
      ([Event.handlerCall "h_keyerr" (enrichPayload msgEvt),
        Event.wildcardCall (enrichPayload msgEvt)], enrichItem msgEvt, none) := by rfl

/-- C4, amended: any exception other than `KeyError` raised by a
registered callable handler propagates out of the per-message dispatch
unmodified, with no wildcard invocation (this includes `TypeError`,
re-raised verbatim because the registered slot is not `None`); a
`KeyError` raised by the handler is instead treated exactly like a
missing registration and routed to the wildcard fallback. -/
theorem handler_exception_propagation (cb : Registry) (w : Wildcard) (m : MessageItem)
    (h : Handler) (e : PyExc)
    (hl : pyLookup cb m.message_name = some (Slot.callable h))
    (hb : h.behavior (enrichPayload m) = some e) :
    (e ≠ PyExc.keyError →
      dispatchOne cb w m =
        ([Event.handlerCall h.name (enrichPayload m)], enrichItem m, some e)) ∧
    (e = PyExc.keyError →
      (dispatchOne cb w m).1 =
        Event.handlerCall h.name (enrichPayload m) :: (wildcardFallback w (enrichPayload m)).1 ∧
      (dispatchOne cb w m).2.2 = (wildcardFallback w (enrichPayload m)).2) := by
  constructor
  · intro hne
    rcases e with _ | _ | _ | msg | msg | nm
    · exact absurd rfl hne
    all_goals simp [dispatchOne, enrichItem, hl, hb]
  · rintro rfl
    constructor <;> simp [dispatchOne, hl, hb]

/-- C4, witness: a handler raising `ValueError` propagates it verbatim;
one raising `KeyError` hands the enriched payload to the wildcard. -/
theorem handler_exception_propagation_witness :
    dispatchOne [("evt", Slot.callable hRaisesValueError)] (Wildcard.callable hWild) msgEvt =
      ([Event.handlerCall "h_boom" (enrichPayload msgEvt)], enrichItem msgEvt,
        some (PyExc.otherError "ValueError")) ∧
    (dispatchOne [("evt", Slot.callable hRaisesKeyError)] (Wildcard.callable hWild) msgEvt).1 =
      Event.handlerCall "h_keyerr" (enrichPayload msgEvt) ::
        (wildcardFallback (Wildcard.callable hWild) (enrichPayload msgEvt)).1 :=
  ⟨(handler_exception_propagation [("evt", Slot.callable hRaisesValueError)]
      (Wildcard.callable hWild) msgEvt hRaisesValueError (PyExc.otherError "ValueError")
      (by rfl) (by rfl)).1 (by simp),
   ((handler_exception_propagation [("evt", Slot.callable hRaisesKeyError)]
      (Wildcard.callable hWild) msgEvt hRaisesKeyError PyExc.keyError
      (by rfl) (by rfl)).2 rfl).1⟩

/-! ## C10: in-place payload enrichment -/

/-- C10: over any dispatch loop run that completes without a
propagating exception, every message in the batch — including those
with no handler and no wildcard — has `message_id` and
`sender_entity_id` written into its caller-visible payload, and every
wildcard invocation receives exactly the enriched payload of one of the
batch's messages. -/
theorem dispatch_enriches_payload_in_place (cb : Registry) (w : Wildcard)
    (msgs : List MessageItem)
    (hok : (dispatchLoop cb w msgs).2.2 = none) :
    (∀ m : MessageItem, (dispatchOne cb w m).2.1 = enrichItem m) ∧
    (dispatchLoop cb w msgs).2.1 = msgs.map enrichItem ∧
    ∀ p : Payload, Event.wildcardCall p ∈ (dispatchLoop cb w msgs).1 →
      ∃ m ∈ msgs, p = enrichPayload m := by
  refine ⟨dispatchOne_item cb w, dispatchLoop_items cb w msgs hok, ?_⟩
  intro p hp
  rcases dispatchLoop_events cb w msgs _ hp with ⟨s, m, hm, he⟩ | ⟨m, hm, he⟩
  · simp at he
  · exact ⟨m, hm, by simpa using he⟩

/-- C10, witness: a handled message and an unmatched one both come out
enriched, an unmatched message is enriched even though nothing is
invoked for it, and the wildcard call observed in the trace carries an
enriched payload of the batch. -/
theorem dispatch_enriches_payload_in_place_witness :
    (dispatchOne [("grade_update", Slot.callable hGrade)] (Wildcard.callable hWild)
        msgUnknown).2.1 = enrichItem msgUnknown ∧
    (dispatchLoop [("grade_update", Slot.callable hGrade)] (Wildcard.callable hWild)
        [msgGrade, msgUnknown]).2.1 = [msgGrade, msgUnknown].map enrichItem ∧
    ∃ m ∈ [msgGrade, msgUnknown], enrichPayload msgUnknown = enrichPayload m :=
  ⟨(dispatch_enriches_payload_in_place [("grade_update", Slot.callable hGrade)]
      (Wildcard.callable hWild) [msgGrade, msgUnknown] (by rfl)).1 msgUnknown,
   (dispatch_enriches_payload_in_place [("grade_update", Slot.callable hGrade)]
      (Wildcard.callable hWild) [msgGrade, msgUnknown] (by rfl)).2.1,
   (dispatch_enriches_payload_in_place [("grade_update", Slot.callable hGrade)]
      (Wildcard.callable hWild) [msgGrade, msgUnknown] (by rfl)).2.2
      (enrichPayload msgUnknown) (by decide)⟩

/-! ## C5: transaction processing -/

lemma handleTxLoop_none : ∀ recs : List TxRecord, handleTxLoop none recs = ([], true) := by
  intro recs
  induction recs with
  | nil => rfl
  | cons r rest ih => simp [handleTxLoop, ih]

lemma handleTxLoop_true_iff (cbh : TxHandler) : ∀ recs : List TxRecord,
    (handleTxLoop (some cbh) recs).2 = true ↔ ∀ x ∈ recs, cbh.behavior x = true := by
  intro recs
  induction recs with
  | nil => simp [handleTxLoop]
  | cons r rest ih =>
      by_cases hb : cbh.behavior r
      · simp [handleTxLoop, hb, ih]
      · simp [handleTxLoop, hb]

lemma handleTxLoop_stop (cbh : TxHandler) (r : TxRecord) (hr : cbh.behavior r = false) :
    ∀ pre post : List TxRecord, (∀ x ∈ pre, cbh.behavior x = true) →
      handleTxLoop (some cbh) (pre ++ r :: post) =
        ((pre ++ [r]).map Event.transactionCall, false) := by
  intro pre
  induction pre with
  | nil => intro post _; simp [handleTxLoop, hr]
  | cons a as ih =>
      intro post hpre
      have ha : cbh.behavior a = true := hpre a (by simp)
      simp [handleTxLoop, ha, ih post (fun x hx => hpre x (by simp [hx]))]

/-- C5: with a registered transaction handler, `_handle_transactions`
invokes it record by record and stops at the first falsy result,
leaving later records unprocessed and returning `False`; the loop
returns `True` exactly when every record gets a truthy result; with no
handler registered the records are consumed silently and the result is
`True`. -/
theorem handle_transactions_early_stop (cbh : TxHandler)
    (pre post recs : List TxRecord) (r : TxRecord)
    (hpre : ∀ x ∈ pre, cbh.behavior x = true) (hr : cbh.behavior r = false) :
    handleTransactions (some cbh) (pre ++ r :: post) =
      (Event.getData "plugin/transaction/list" ::
        (pre ++ [r]).map Event.transactionCall, false) ∧
    ((handleTxLoop (some cbh) recs).2 = true ↔ ∀ x ∈ recs, cbh.behavior x = true) ∧
    handleTransactions none recs = ([Event.getData "plugin/transaction/list"], true) := by
  refine ⟨?_, handleTxLoop_true_iff cbh recs, ?_⟩
  · simp [handleTransactions, handleTxLoop_stop cbh r hr pre post hpre]
  · simp [handleTransactions, handleTxLoop_none]

/-- C5, witness: the stopping handler halts on the middle record of
three, so the third is never passed to it. -/
theorem handle_transactions_early_stop_witness :
    handleTransactions (some txStopper) ([recGo] ++ recStop :: [recGo]) =
      (Event.getData "plugin/transaction/list" ::
        ([recGo] ++ [recStop]).map Event.transactionCall, false) ∧
    (handleTxLoop (some txStopper) [recGo]).2 = true ∧
    handleTransactions none [recGo] = ([Event.getData "plugin/transaction/list"], true) :=
  ⟨(handle_transactions_early_stop txStopper [recGo] [recGo] [recGo] recStop
      (by decide) (by decide)).1,
   (handle_transactions_early_stop txStopper [recGo] [recGo] [recGo] recStop
      (by decide) (by decide)).2.1.mpr (by decide),
   (handle_transactions_early_stop txStopper [recGo] [recGo] [recGo] recStop
      (by decide) (by decide)).2.2⟩

/-! ## C9: register_transaction_callback -/

/-- C9: a non-callable argument makes `register_transaction_callback`
raise `BadCallbackException` (the spec's `InvalidCallback`) before any
remote request, leaving the transaction-callback slot unchanged; a
callable argument posts `plugin/subscribe` for `"transaction"` and then
records the callback — and if the post itself raises, the slot is also
left unchanged. -/
theorem register_transaction_callback_checks (slot : Option TxHandler)
    (h : TxHandler) (postOk : Bool) :
    (∀ d : String, registerTransactionCallback slot (CallbackVal.notCallable d) postOk =
        ([], slot, some (PyExc.badCallback "The callback submitted is not callable."))) ∧
    (postOk = true →
      registerTransactionCallback slot (CallbackVal.callable h) postOk =
        ([Event.postData "plugin/subscribe" "transaction"], some h, none)) ∧
    (postOk = false →
      registerTransactionCallback slot (CallbackVal.callable h) postOk =
        ([Event.postData "plugin/subscribe" "transaction"], slot,
          some (PyExc.otherError "transport failure"))) := by
  refine ⟨fun d => rfl, ?_, ?_⟩
  · intro hp; simp [registerTransactionCallback, hp]
  · intro hp; simp [registerTransactionCallback, hp]

/-- C9, witness: a non-callable value is rejected with no post; a
callable one is posted and recorded. -/
theorem register_transaction_callback_checks_witness :
    registerTransactionCallback none (CallbackVal.notCallable "an int") true =
      ([], none, some (PyExc.badCallback "The callback submitted is not callable.")) ∧
    registerTransactionCallback none (CallbackVal.callable txStopper) true =
      ([Event.postData "plugin/subscribe" "transaction"], some txStopper, none) :=
  ⟨(register_transaction_callback_checks none txStopper true).1 "an int",
   (register_transaction_callback_checks none txStopper true).2.1 rfl⟩

/-! ## C8: subscribe remote failure leaves the registry untouched -/

lemma pyLookup_pySet_ne {α : Type} (k a : String) (v : α) (hne : a ≠ k) :
    ∀ d : PyDict α, pyLookup (pySet d k v) a = pyLookup d a := by
  have hne' : k ≠ a := Ne.symm hne
  intro d
  induction d with
  | nil => simp [pySet, pyLookup, hne']
  | cons kv rest ih =>
      rcases kv with ⟨k', v'⟩
      by_cases hk : k' = k
      · subst hk
        simp [pySet, pyLookup, hne']
      · by_cases hka : k' = a <;> simp [pySet, pyLookup, hk, hka, hne, ih]

/-- C8: a failing remote `plugin/subscribe` post aborts `subscribe`
with the registry exactly as it stood after the earlier (successful)
entries, so the failing entry's handler is never recorded and the
binding for that name is untouched. -/
theorem subscribe_remote_failure_no_local_update (cb : Registry)
    (pre post : List SubEntry) (name : String) (slot : Slot)
    (hpre : ∀ e ∈ pre, e.2.2 = true) :
    subscribeRun (pre ++ (name, slot, false) :: post) cb =
      ((subscribeRun pre cb).1, some (PyExc.otherError "transport failure")) ∧
    (name ∉ pre.map (fun e => e.1) →
      pyLookup (subscribeRun (pre ++ (name, slot, false) :: post) cb).1 name =
        pyLookup cb name) := by
  induction pre generalizing cb with
  | nil =>
      refine ⟨by simp [subscribeRun], ?_⟩
      intro _
      simp [subscribeRun]
  | cons a as ih =>
      rcases a with ⟨k, s, ok⟩
      have hok : ok = true := hpre (k, s, ok) (by simp)
      subst hok
      have ih' := ih (pySet cb k s) (fun e he => hpre e (by simp [he]))
      constructor
      · simpa [subscribeRun] using ih'.1
      · intro hn
        rw [List.map_cons, List.mem_cons] at hn
        push_neg at hn
        have h1 : pyLookup
            (subscribeRun (((k, s, true) :: as) ++ (name, slot, false) :: post) cb).1 name
            = pyLookup (subscribeRun (as ++ (name, slot, false) :: post) (pySet cb k s)).1 name := by
          simp [subscribeRun]
        rw [h1, ih'.2 hn.2, pyLookup_pySet_ne k name s hn.1 cb]

/-- C8, witness: the middle entry's post fails, so its name stays
absent while the first entry is recorded. -/
theorem subscribe_remote_failure_no_local_update_witness :
    subscribeRun ([("a", Slot.pyNone, true)] ++ ("b", Slot.pyNone, false) ::
        [("c", Slot.pyNone, true)]) [] =
      ((subscribeRun [("a", Slot.pyNone, true)] []).1,
        some (PyExc.otherError "transport failure")) ∧
    pyLookup (subscribeRun ([("a", Slot.pyNone, true)] ++ ("b", Slot.pyNone, false) ::
        [("c", Slot.pyNone, true)]) []).1 "b" = pyLookup ([] : Registry) "b" :=
  ⟨(subscribe_remote_failure_no_local_update [] [("a", Slot.pyNone, true)]
      [("c", Slot.pyNone, true)] "b" Slot.pyNone (by decide)).1,
   (subscribe_remote_failure_no_local_update [] [("a", Slot.pyNone, true)]
      [("c", Slot.pyNone, true)] "b" Slot.pyNone (by decide)).2 (by decide)⟩

/-! ## C7: registry invariant -/

lemma pyKeys_pair_cons {α : Type} (k : String) (v : α) (rest : PyDict α) :
    pyKeys ((k, v) :: rest) = k :: pyKeys rest := rfl

lemma pySet_cons_eq {α : Type} (k : String) (v v' : α) (rest : PyDict α) :
    pySet ((k, v') :: rest) k v = (k, v) :: rest := by simp [pySet]

lemma pySet_cons_ne {α : Type} (k k' : String) (v v' : α) (rest : PyDict α)
    (hk : k' ≠ k) : pySet ((k', v') :: rest) k v = (k', v') :: pySet rest k v := by
  simp [pySet, hk]

lemma pyKeys_pySet {α : Type} (k : String) (v : α) :
    ∀ (d : PyDict α) (a : String),
      a ∈ pyKeys (pySet d k v) ↔ a = k ∨ a ∈ pyKeys d := by
  intro d
  induction d with
  | nil => intro a; simp [pySet, pyKeys]
  | cons kv rest ih =>
      rcases kv with ⟨k', v'⟩
      intro a
      by_cases hk : k' = k
      · subst hk
        rw [pySet_cons_eq, pyKeys_pair_cons, pyKeys_pair_cons]
        simp only [List.mem_cons]
        tauto
      · rw [pySet_cons_ne k k' v v' rest hk, pyKeys_pair_cons, pyKeys_pair_cons]
        simp only [List.mem_cons, ih a]
        tauto

lemma pyKeys_pySet_nodup {α : Type} (k : String) (v : α) :
    ∀ d : PyDict α, (pyKeys d).Nodup → (pyKeys (pySet d k v)).Nodup := by
  intro d
  induction d with
  | nil => intro _; simp [pySet, pyKeys]
  | cons kv rest ih =>
      rcases kv with ⟨k', v'⟩
      intro hnd
      rw [pyKeys_pair_cons, List.nodup_cons] at hnd
      by_cases hk : k' = k
      · subst hk
        rw [pySet_cons_eq, pyKeys_pair_cons, List.nodup_cons]
        exact hnd
      · rw [pySet_cons_ne k k' v v' rest hk, pyKeys_pair_cons, List.nodup_cons]
        refine ⟨?_, ih hnd.2⟩
        intro hmem
        rcases (pyKeys_pySet k v rest k').mp hmem with rfl | h2
        · exact hk rfl
        · exact hnd.1 h2

lemma pyDel_sublist {α : Type} (k : String) :
    ∀ d : PyDict α, List.Sublist (pyDel d k) d := by
  intro d
  induction d with
  | nil => simp [pyDel]
  | cons kv rest ih =>
      rcases kv with ⟨k', v'⟩
      by_cases hk : k' = k
      · simp only [pyDel, if_pos hk]
        exact List.sublist_cons_self _ _
      · simp only [pyDel, if_neg hk]
        exact List.Sublist.cons₂ _ ih

lemma subscribeRun_inv (entries : List SubEntry) :
    ∀ cb : Registry,
      ((pyKeys cb).Nodup → (pyKeys (subscribeRun entries cb).1).Nodup) ∧
      (∀ a ∈ pyKeys (subscribeRun entries cb).1,
        a ∈ pyKeys cb ∨ a ∈ (entries.takeWhile fun e => e.2.2).map fun e => e.1) := by
  induction entries with
  | nil => intro cb; simp [subscribeRun]
  | cons e rest ih =>
      intro cb
      rcases e with ⟨k, s, ok⟩
      cases ok with
      | false => simp [subscribeRun]
      | true =>
          constructor
          · intro hnd
            exact ((ih (pySet cb k s)).1 (pyKeys_pySet_nodup k s cb hnd))
          · intro a ha
            have ha' : a ∈ pyKeys (subscribeRun rest (pySet cb k s)).1 := by
              simpa [subscribeRun] using ha
            rcases (ih (pySet cb k s)).2 a ha' with h | h
            · rcases (pyKeys_pySet k s cb a).mp h with rfl | h2
              · right; simp [List.takeWhile_cons]
              · left; exact h2
            · right
              simp only [List.takeWhile_cons]
              simpa using Or.inr h

lemma unsubscribeRun_inv (names : List (String × Bool)) :
    ∀ cb : Registry,
      ((pyKeys cb).Nodup → (pyKeys (unsubscribeRun names cb).1).Nodup) ∧
      (∀ a ∈ pyKeys (unsubscribeRun names cb).1, a ∈ pyKeys cb) := by
  induction names with
  | nil => intro cb; simp [unsubscribeRun]
  | cons e rest ih =>
      intro cb
      rcases e with ⟨k, ok⟩
      by_cases hin : (pyLookup cb k).isSome
      · cases ok with
        | false =>
            have hstep : unsubscribeRun ((k, false) :: rest) cb =
                (cb, some (PyExc.otherError "transport failure")) := by
              simp [unsubscribeRun, hin]
            rw [hstep]
            exact ⟨fun h => h, fun a ha => ha⟩
        | true =>
            have hstep : unsubscribeRun ((k, true) :: rest) cb =
                unsubscribeRun rest (pyDel cb k) := by
              simp [unsubscribeRun, hin]
            rw [hstep]
            have hsub : List.Sublist (pyKeys (pyDel cb k)) (pyKeys cb) :=
              (pyDel_sublist k cb).map Prod.fst
            refine ⟨fun hnd => (ih (pyDel cb k)).1 (hnd.sublist hsub), ?_⟩
            intro a ha
            exact hsub.subset ((ih (pyDel cb k)).2 a ha)
      · have hstep : unsubscribeRun ((k, ok) :: rest) cb = unsubscribeRun rest cb := by
          simp [unsubscribeRun, hin]
        rw [hstep]
        exact ih cb

lemma listSubscriptions_inv (subs : List String) :
    ∀ cb : Registry,
      ((pyKeys cb).Nodup → (pyKeys (listSubscriptions cb subs)).Nodup) ∧
      (∀ a ∈ pyKeys (listSubscriptions cb subs), a ∈ pyKeys cb ∨ a ∈ subs) := by
  induction subs with
  | nil => intro cb; simp [listSubscriptions]
  | cons s rest ih =>
      intro cb
      by_cases hs : (pyLookup cb s).isSome
      · have hstep : listSubscriptions cb (s :: rest) = listSubscriptions cb rest := by
          simp [listSubscriptions, hs]
        rw [hstep]
        refine ⟨(ih cb).1, ?_⟩
        intro a ha
        rcases (ih cb).2 a ha with h | h
        · exact Or.inl h
        · exact Or.inr (List.mem_cons_of_mem s h)
      · have hstep : listSubscriptions cb (s :: rest) =
            listSubscriptions (pySet cb s Slot.pyNone) rest := by
          simp [listSubscriptions, hs]
        rw [hstep]
        constructor
        · intro hnd
          exact (ih _).1 (pyKeys_pySet_nodup s Slot.pyNone cb hnd)
        · intro a ha
          rcases (ih _).2 a ha with h | h
          · rcases (pyKeys_pySet s Slot.pyNone cb a).mp h with rfl | h2
            · exact Or.inr (by simp)
            · exact Or.inl h2
          · exact Or.inr (List.mem_cons_of_mem s h)

lemma applyOp_inv (op : RegOp) (cb : Registry) :
    ((pyKeys cb).Nodup → (pyKeys (applyOp cb op)).Nodup) ∧
    (∀ a ∈ pyKeys (applyOp cb op), a ∈ pyKeys cb ∨ a ∈ opNames op) := by
  rcases op with entries | names | subs
  · exact ⟨(subscribeRun_inv entries cb).1, (subscribeRun_inv entries cb).2⟩
  · refine ⟨(unsubscribeRun_inv names cb).1, ?_⟩
    intro a ha
    exact Or.inl ((unsubscribeRun_inv names cb).2 a ha)
  · exact ⟨(listSubscriptions_inv subs cb).1, (listSubscriptions_inv subs cb).2⟩

lemma runOps_inv : ∀ (ops : List RegOp) (cb : Registry),
    ((pyKeys cb).Nodup → (pyKeys (List.foldl applyOp cb ops)).Nodup) ∧
    (∀ a ∈ pyKeys (List.foldl applyOp cb ops), a ∈ pyKeys cb ∨ a ∈ provenance ops) := by
  intro ops
  induction ops with
  | nil => intro cb; simp [provenance]
  | cons op rest ih =>
      intro cb
      constructor
      · intro hnd
        exact (ih (applyOp cb op)).1 ((applyOp_inv op cb).1 hnd)
      · intro a ha
        rcases (ih (applyOp cb op)).2 a (by simpa using ha) with h | h
        · rcases (applyOp_inv op cb).2 a h with h2 | h2
          · exact Or.inl h2
          · exact Or.inr (by simp [provenance, h2])
        · exact Or.inr (by simp [provenance, h])

/-- C7, amended: after any sequence of `subscribe`, `unsubscribe` and
`list_subscriptions` operations, the registry holds at most one handler
per message name, and every name present either was posted by a
successful `subscribe` entry or was reported by the broker in a
`list_subscriptions` response; every other name is absent. -/
theorem registry_unique_keys_and_provenance (ops : List RegOp) :
    (pyKeys (runOps ops)).Nodup ∧
    ∀ name ∈ pyKeys (runOps ops), name ∈ provenance ops := by
  refine ⟨(runOps_inv ops []).1 (by simp [pyKeys]), ?_⟩
  intro name hn
  rcases (runOps_inv ops []).2 name hn with h | h
  · simp [pyKeys] at h
  · exact h

/-- C7, counterexample: the claim says every name present in the
registry was established by a successful subscribe acknowledgment. A
single `list_subscriptions` call whose broker response names `"foo"`
installs `"foo"` (with a `None` handler) although no subscribe was ever
posted for it. -/
theorem registry_broker_listed_name_cex :
    "foo" ∈ pyKeys (runOps [RegOp.listOp ["foo"]]) ∧
    subscribedNames [RegOp.listOp ["foo"]] = [] := by decide

/-- C7, witness for the amended theorem at a concrete operation
sequence. -/
theorem registry_unique_keys_and_provenance_witness :
    (pyKeys (runOps [RegOp.subOp [("grade_update", Slot.pyNone, true)]])).Nodup ∧
    "grade_update" ∈ provenance [RegOp.subOp [("grade_update", Slot.pyNone, true)]] :=
  ⟨(registry_unique_keys_and_provenance [RegOp.subOp [("grade_update", Slot.pyNone, true)]]).1,
   (registry_unique_keys_and_provenance [RegOp.subOp [("grade_update", Slot.pyNone, true)]]).2
      "grade_update" (by decide)⟩

/-! ## Poll loop helper lemmas -/

lemma dispatchMethod_pre_false (hooks : String → Bool) (cb : Registry) (w : Wildcard)
    (msgs : List MessageItem) (h : hooks "pre_dispatch_messages" = false) :
    dispatchMethod hooks cb w msgs =
      ([Event.hookRun "pre_dispatch_messages"], msgs, Except.ok false) := by
  simp [dispatchMethod, h]

lemma dispatchMethod_error (hooks : String → Bool) (cb : Registry) (w : Wildcard)
    (msgs : List MessageItem) (ex : PyExc)
    (h : hooks "pre_dispatch_messages" = true)
    (hx : (dispatchLoop cb w msgs).2.2 = some ex) :
    dispatchMethod hooks cb w msgs =
      (Event.hookRun "pre_dispatch_messages" :: (dispatchLoop cb w msgs).1,
        (dispatchLoop cb w msgs).2.1, Except.error ex) := by
  simp [dispatchMethod, h, hx]

lemma dispatchMethod_complete (hooks : String → Bool) (cb : Registry) (w : Wildcard)
    (msgs : List MessageItem)
    (h : hooks "pre_dispatch_messages" = true)
    (hx : (dispatchLoop cb w msgs).2.2 = none) :
    dispatchMethod hooks cb w msgs =
      (Event.hookRun "pre_dispatch_messages" :: (dispatchLoop cb w msgs).1
          ++ [Event.hookRun "post_dispatch_messages"],
        (dispatchLoop cb w msgs).2.1, Except.ok (hooks "post_dispatch_messages")) := by
  simp [dispatchMethod, h, hx]

lemma dispatchLoop_no_lifecycle (cb : Registry) (w : Wildcard) (msgs : List MessageItem) :
    ∀ e ∈ (dispatchLoop cb w msgs).1, isLifecycleEv e = false := by
  intro e he
  rcases dispatchLoop_events cb w msgs e he with ⟨s, m, hm, rfl⟩ | ⟨m, hm, rfl⟩ <;> rfl

lemma dispatchMethod_no_lifecycle (hooks : String → Bool) (cb : Registry) (w : Wildcard)
    (msgs : List MessageItem) :
    ∀ e ∈ (dispatchMethod hooks cb w msgs).1, isLifecycleEv e = false := by
  intro e he
  by_cases hp : hooks "pre_dispatch_messages" = true
  · rcases hx : (dispatchLoop cb w msgs).2.2 with _ | ex
    · rw [dispatchMethod_complete hooks cb w msgs hp hx] at he
      simp at he
      rcases he with rfl | he | rfl
      · rfl
      · exact dispatchLoop_no_lifecycle cb w msgs e he
      · rfl
    · rw [dispatchMethod_error hooks cb w msgs ex hp hx] at he
      rcases List.mem_cons.mp he with rfl | he
      · rfl
      · exact dispatchLoop_no_lifecycle cb w msgs e he
  · rw [dispatchMethod_pre_false hooks cb w msgs (by simpa using hp)] at he
    simp only [List.mem_singleton] at he
    subst he
    rfl

lemma handleTxLoop_events (cbh : Option TxHandler) :
    ∀ recs : List TxRecord, ∀ e ∈ (handleTxLoop cbh recs).1,
      ∃ r, e = Event.transactionCall r := by
  intro recs
  induction recs with
  | nil => intro e he; simp [handleTxLoop] at he
  | cons r rest ih =>
      intro e he
      rcases cbh with _ | hh
      · exact ih e (by simpa [handleTxLoop] using he)
      · by_cases hb : hh.behavior r = true
        · simp only [handleTxLoop, hb, if_true] at he
          rcases List.mem_cons.mp he with rfl | h2
          · exact ⟨r, rfl⟩
          · exact ih e h2
        · rw [Bool.not_eq_true] at hb
          simp only [handleTxLoop, hb, Bool.false_eq_true, if_false] at he
          rcases List.mem_singleton.mp he with rfl
          exact ⟨r, rfl⟩

lemma handleTransactions_no_lifecycle (cbh : Option TxHandler) (txData : List TxRecord) :
    ∀ e ∈ (handleTransactions cbh txData).1, isLifecycleEv e = false := by
  intro e he
  rcases List.mem_cons.mp (by simpa [handleTransactions] using he) with rfl | h2
  · rfl
  · rcases handleTxLoop_events cbh txData e h2 with ⟨r, rfl⟩
    rfl

lemma runCycle_no_lifecycle (env : Env) (st : PState) (n : Nat) :
    ∀ e ∈ (runCycle env st n).1, isLifecycleEv e = false := by
  intro e he
  have hd := dispatchMethod_no_lifecycle (env.hookResults n) st.callbacks
    st.wildcard_callback (env.messages n) e
  have htx := handleTransactions_no_lifecycle st.transaction_callback
    (env.transactions n) e
  by_cases ht : env.times n - st.time_last_poll < pollWait
  · simp [runCycle, ht] at he
  by_cases h1 : env.hookResults n "pre_poll_messages" = false
  · simp [runCycle, ht, h1] at he
    try casesm* _ ∨ _
    all_goals
      first
      | rfl
      | exact hd (by assumption)
      | exact htx (by assumption)
      | (subst_vars; rfl)
  by_cases h2 : env.hookResults n "post_poll_messages" = false
  · simp [runCycle, ht, h1, h2] at he
    try casesm* _ ∨ _
    all_goals
      first
      | rfl
      | exact hd (by assumption)
      | exact htx (by assumption)
      | (subst_vars; rfl)
  rcases hdres : (dispatchMethod (env.hookResults n) st.callbacks
      st.wildcard_callback (env.messages n)).2.2 with ex | b
  · simp [runCycle, ht, h1, h2, hdres] at he
    try casesm* _ ∨ _
    all_goals
      first
      | rfl
      | exact hd (by assumption)
      | exact htx (by assumption)
      | (subst_vars; rfl)
  rcases b with _ | _
  · simp [runCycle, ht, h1, h2, hdres] at he
    try casesm* _ ∨ _
    all_goals
      first
      | rfl
      | exact hd (by assumption)
      | exact htx (by assumption)
      | (subst_vars; rfl)
  by_cases h3 : env.hookResults n "pre_handle_transactions" = false
  · simp [runCycle, ht, h1, h2, hdres, h3] at he
    try casesm* _ ∨ _
    all_goals
      first
      | rfl
      | exact hd (by assumption)
      | exact htx (by assumption)
      | (subst_vars; rfl)
  by_cases h4 : (handleTransactions st.transaction_callback (env.transactions n)).2 = false
  · simp [runCycle, ht, h1, h2, hdres, h3, h4] at he
    try casesm* _ ∨ _
    all_goals
      first
      | rfl
      | exact hd (by assumption)
      | exact htx (by assumption)
      | (subst_vars; rfl)
  by_cases h5 : env.hookResults n "post_handle_transactions" = false
  · simp [runCycle, ht, h1, h2, hdres, h3, h4, h5] at he
    try casesm* _ ∨ _
    all_goals
      first
      | rfl
      | exact hd (by assumption)
      | exact htx (by assumption)
      | (subst_vars; rfl)
  by_cases h6 : env.hookResults n "pre_poll_responses" = false
  · simp [runCycle, ht, h1, h2, hdres, h3, h4, h5, h6] at he
    try casesm* _ ∨ _
    all_goals
      first
      | rfl
      | exact hd (by assumption)
      | exact htx (by assumption)
      | (subst_vars; rfl)
  by_cases h7 : env.hookResults n "post_poll_responses" = false
  · simp [runCycle, ht, h1, h2, hdres, h3, h4, h5, h6, h7] at he
    try casesm* _ ∨ _
    all_goals
      first
      | rfl
      | exact hd (by assumption)
      | exact htx (by assumption)
      | (subst_vars; rfl)
  by_cases h8 : env.respDispatchOk n = false
  · simp [runCycle, ht, h1, h2, hdres, h3, h4, h5, h6, h7, h8] at he
    try casesm* _ ∨ _
    all_goals
      first
      | rfl
      | exact hd (by assumption)
      | exact htx (by assumption)
      | (subst_vars; rfl)
  · simp [runCycle, ht, h1, h2, hdres, h3, h4, h5, h6, h7, h8] at he
    try casesm* _ ∨ _
    all_goals
      first
      | rfl
      | exact hd (by assumption)
      | exact htx (by assumption)
      | (subst_vars; rfl)

lemma countP_lifecycle_zero (l : List Event) (h : ∀ e ∈ l, isLifecycleEv e = false) :
    l.countP isConnectEv = 0 ∧ l.countP isDisconnectEv = 0 := by
  constructor <;>
    (refine List.countP_eq_zero.mpr ?_
     intro e he
     have hb := h e he
     cases e <;> simp_all [isLifecycleEv, isConnectEv, isDisconnectEv])

lemma startAux_counts (env : Env) : ∀ (fuel : Nat) (st : PState) (n : Nat),
    (startAux env st n fuel).1.countP isConnectEv = 0 ∧
    (startAux env st n fuel).1.countP isDisconnectEv =
      (if (startAux env st n fuel).2 = StartOutcome.finished then 1 else 0) := by
  intro fuel
  induction fuel with
  | zero => intro st n; simp [startAux]
  | succ fuel ih =>
      intro st n
      have hcyc := countP_lifecycle_zero (runCycle env st n).1 (runCycle_no_lifecycle env st n)
      by_cases hrl : st.run_loop
      · cases hc : (runCycle env st n).2 with
        | nextCycle st' =>
            have hr := ih st' (n + 1)
            simp [startAux, hrl, hc, List.countP_append, hcyc.1, hcyc.2, hr.1, hr.2]
        | breakLoop st' =>
            simp [startAux, hrl, hc, List.countP_append, List.countP_cons,
              hcyc.1, hcyc.2, isConnectEv, isDisconnectEv]
        | returnFalse st' =>
            simp [startAux, hrl, hc, hcyc.1, hcyc.2]
        | raised ex st' =>
            by_cases hex : ex = PyExc.keyboardInterrupt
            · simp [startAux, hrl, hc, hex, List.countP_append, List.countP_cons,
                hcyc.1, hcyc.2, isConnectEv, isDisconnectEv]
            · simp [startAux, hrl, hc, hex, hcyc.1, hcyc.2]
      · simp [startAux, hrl, List.countP_cons, isConnectEv, isDisconnectEv]

/-! ## C3: connect / disconnect discipline of start() -/

/-- C3, amended: `start` runs `connect` exactly once; `disconnect` runs
exactly once whenever the loop exits cleanly — clean stop via the
running flag, a hook returning `False` (`break`), a falsy responses
dispatch, or a caught `KeyboardInterrupt` — and does NOT run at all
when `start` exits through the bare `return False` statements taken on
a false return from the Dispatcher or the Transaction Processor (or
when an uncaught exception propagates). -/
theorem start_connect_disconnect_discipline (env : Env) (fuel : Nat) :
    (hpitStart env fuel).1.countP isConnectEv = 1 ∧
    (hpitStart env fuel).1.countP isDisconnectEv =
      (if (hpitStart env fuel).2 = StartOutcome.finished then 1 else 0) := by
  have h := startAux_counts env fuel
    { run_loop := true
      callbacks := listSubscriptions env.initCallbacks env.brokerSubs
      wildcard_callback := env.wildcard
      transaction_callback := env.txCallback
      time_last_poll := env.initTime } 0
  constructor
  · simp [hpitStart, List.countP_cons, isConnectEv, h.1]
  · simp [hpitStart, List.countP_cons, isConnectEv, isDisconnectEv, h.2]

/-- C3, counterexample: the claim says the broker disconnect runs on a
false return from the Dispatcher. In an environment whose
`pre_dispatch_messages` hook returns `False`, `_dispatch` returns
`False` and `start` exits by `return False` with the disconnect never
executed (while connect did run). -/
theorem start_dispatch_false_no_disconnect_cex :
    (hpitStart envDispatchHookFalse 1).2 = StartOutcome.returnedFalse ∧
    (hpitStart envDispatchHookFalse 1).1.countP isDisconnectEv = 0 ∧
    (hpitStart envDispatchHookFalse 1).1.countP isConnectEv = 1 := by decide

/-! ## C6: a false hook aborts the cycle -/

/-- C6: at every named hook point of the poll cycle, a `False` hook
result aborts the cycle right there: the failing hook's consultation is
the last event of the cycle's trace — no message fetch, dispatch phase,
transaction fetch or processing, responses phase, or later hook runs in
that cycle — and the loop stops (`breakLoop` for the six hooks checked
in `start`, and for the two dispatch hooks a `False` return of
`_dispatch` that makes `start` return `False`). -/
theorem hook_false_aborts_cycle (env : Env) (st : PState) (n : Nat)
    (htime : ¬ env.times n - st.time_last_poll < pollWait) :
    (env.hookResults n "pre_poll_messages" = false →
      runCycle env st n = ([Event.hookRun "pre_poll_messages"],
        CycleOutcome.breakLoop { st with time_last_poll := env.times n })) ∧
    (env.hookResults n "pre_poll_messages" = true →
      env.hookResults n "post_poll_messages" = false →
      runCycle env st n = ([Event.hookRun "pre_poll_messages",
          Event.getData "plugin/message/list", Event.hookRun "post_poll_messages"],
        CycleOutcome.breakLoop { st with time_last_poll := env.times n })) ∧
    (env.hookResults n "pre_poll_messages" = true →
      env.hookResults n "post_poll_messages" = true →
      env.hookResults n "pre_dispatch_messages" = false →
      runCycle env st n = ([Event.hookRun "pre_poll_messages",
          Event.getData "plugin/message/list", Event.hookRun "post_poll_messages",
          Event.hookRun "pre_dispatch_messages"],
        CycleOutcome.returnFalse { st with time_last_poll := env.times n })) ∧
    (env.hookResults n "pre_poll_messages" = true →
      env.hookResults n "post_poll_messages" = true →
      env.hookResults n "pre_dispatch_messages" = true →
      (dispatchLoop st.callbacks st.wildcard_callback (env.messages n)).2.2 = none →
      env.hookResults n "post_dispatch_messages" = false →
      runCycle env st n = ([Event.hookRun "pre_poll_messages",
          Event.getData "plugin/message/list", Event.hookRun "post_poll_messages"]
          ++ Event.hookRun "pre_dispatch_messages" ::
            (dispatchLoop st.callbacks st.wildcard_callback (env.messages n)).1
          ++ [Event.hookRun "post_dispatch_messages"],
        CycleOutcome.returnFalse { st with time_last_poll := env.times n })) ∧
    (env.hookResults n "pre_poll_messages" = true →
      env.hookResults n "post_poll_messages" = true →
      (dispatchMethod (env.hookResults n) st.callbacks st.wildcard_callback
          (env.messages n)).2.2 = Except.ok true →
      env.hookResults n "pre_handle_transactions" = false →
      runCycle env st n = ([Event.hookRun "pre_poll_messages",
          Event.getData "plugin/message/list", Event.hookRun "post_poll_messages"]
          ++ (dispatchMethod (env.hookResults n) st.callbacks st.wildcard_callback
              (env.messages n)).1
          ++ [Event.hookRun "pre_handle_transactions"],
        CycleOutcome.breakLoop { st with time_last_poll := env.times n })) ∧
    (env.hookResults n "pre_poll_messages" = true →
      env.hookResults n "post_poll_messages" = true →
      (dispatchMethod (env.hookResults n) st.callbacks st.wildcard_callback
          (env.messages n)).2.2 = Except.ok true →
      env.hookResults n "pre_handle_transactions" = true →
      (handleTransactions st.transaction_callback (env.transactions n)).2 = true →
      env.hookResults n "post_handle_transactions" = false →
      runCycle env st n = ([Event.hookRun "pre_poll_messages",
          Event.getData "plugin/message/list", Event.hookRun "post_poll_messages"]
          ++ (dispatchMethod (env.hookResults n) st.callbacks st.wildcard_callback
              (env.messages n)).1
          ++ Event.hookRun "pre_handle_transactions" ::
            (handleTransactions st.transaction_callback (env.transactions n)).1
          ++ [Event.hookRun "post_handle_transactions"],
        CycleOutcome.breakLoop { st with time_last_poll := env.times n })) ∧
    (env.hookResults n "pre_poll_messages" = true →
      env.hookResults n "post_poll_messages" = true →
      (dispatchMethod (env.hookResults n) st.callbacks st.wildcard_callback
          (env.messages n)).2.2 = Except.ok true →
      env.hookResults n "pre_handle_transactions" = true →
      (handleTransactions st.transaction_callback (env.transactions n)).2 = true →
      env.hookResults n "post_handle_transactions" = true →
      env.hookResults n "pre_poll_responses" = false →
      runCycle env st n = ([Event.hookRun "pre_poll_messages",
          Event.getData "plugin/message/list", Event.hookRun "post_poll_messages"]
          ++ (dispatchMethod (env.hookResults n) st.callbacks st.wildcard_callback
              (env.messages n)).1
          ++ Event.hookRun "pre_handle_transactions" ::
            (handleTransactions st.transaction_callback (env.transactions n)).1
          ++ [Event.hookRun "post_handle_transactions"]
          ++ [Event.hookRun "pre_poll_responses"],
        CycleOutcome.breakLoop { st with time_last_poll := env.times n })) ∧
    (env.hookResults n "pre_poll_messages" = true →
      env.hookResults n "post_poll_messages" = true →
      (dispatchMethod (env.hookResults n) st.callbacks st.wildcard_callback
          (env.messages n)).2.2 = Except.ok true →
      env.hookResults n "pre_handle_transactions" = true →
      (handleTransactions st.transaction_callback (env.transactions n)).2 = true →
      env.hookResults n "post_handle_transactions" = true →
      env.hookResults n "pre_poll_responses" = true →
      env.hookResults n "post_poll_responses" = false →
      runCycle env st n = ([Event.hookRun "pre_poll_messages",
          Event.getData "plugin/message/list", Event.hookRun "post_poll_messages"]
          ++ (dispatchMethod (env.hookResults n) st.callbacks st.wildcard_callback
              (env.messages n)).1
          ++ Event.hookRun "pre_handle_transactions" ::
            (handleTransactions st.transaction_callback (env.transactions n)).1
          ++ [Event.hookRun "post_handle_transactions"]
          ++ [Event.hookRun "pre_poll_responses", Event.pollResponses]
          ++ [Event.hookRun "post_poll_responses"],
        CycleOutcome.breakLoop { st with time_last_poll := env.times n })) := by
  refine ⟨?_, ?_, ?_, ?_, ?_, ?_, ?_, ?_⟩
  · intro h1
    simp [runCycle, htime, h1]
  · intro h1 h2
    simp [runCycle, htime, h1, h2]
  · intro h1 h2 h3
    have hd := dispatchMethod_pre_false (env.hookResults n) st.callbacks
      st.wildcard_callback (env.messages n) h3
    simp [runCycle, htime, h1, h2, hd]
  · intro h1 h2 h3 h4 h5
    have hd := dispatchMethod_complete (env.hookResults n) st.callbacks
      st.wildcard_callback (env.messages n) h3 h4
    simp [runCycle, htime, h1, h2, hd, h5]
  · intro h1 h2 hdok h3
    simp [runCycle, htime, h1, h2, hdok, h3]
  · intro h1 h2 hdok hpt htxok h4
    simp [runCycle, htime, h1, h2, hdok, hpt, htxok, h4]
  · intro h1 h2 hdok hpt htxok h5 h6
    simp [runCycle, htime, h1, h2, hdok, hpt, htxok, h5, h6]
  · intro h1 h2 hdok hpt htxok h5 h6 h7
    simp [runCycle, htime, h1, h2, hdok, hpt, htxok, h5, h6, h7]

/-- C6, witness: with every hook returning `False`, the first cycle
consists of the single `pre_poll_messages` consultation and breaks. -/
theorem hook_false_aborts_cycle_witness :
    runCycle envAllHooksFalse stIdle 0 =
      ([Event.hookRun "pre_poll_messages"],
        CycleOutcome.breakLoop { stIdle with time_last_poll := envAllHooksFalse.times 0 }) :=
  (hook_false_aborts_cycle envAllHooksFalse stIdle 0 (by decide)).1 (by rfl)

end HpitClient
